import Mathlib

/-
  Shallow embedding of the countdown engine of zentick
  (src/src/composables/useRobustTimer.ts).

  Wall-clock times and durations are integers (milliseconds).  The
  platform timer queue is modelled explicitly: `pending` is the list of
  scheduled-but-not-yet-fired timeouts (window.setTimeout creates one,
  window.clearTimeout removes one by id, and the platform delivering a
  timeout removes it and runs `tick`).  `timeoutId` is the engine's own
  variable of the same name: the id of the most recently scheduled
  timeout, which is what clearTimer cancels.  The caller-supplied
  onComplete callback is modelled by the counter `completions`, which
  records how many times it has been invoked.
-/

namespace Zentick

/-- A scheduled timeout: its platform id and the delay it was scheduled with. -/
structure Timeout where
  id : Nat
  delay : Int
  deriving DecidableEq, Repr

/-- The state of one countdown engine instance, as held by useRobustTimer:
reactive refs remainingMs / isRunning / isPaused, internal variables
deadline / timeoutId / pausedRemainingMs, the immutable durationMs, plus
the modelled platform timer queue and callback counter. -/
structure Engine where
  durationMs : Int
  remainingMs : Int
  isRunning : Bool
  isPaused : Bool
  deadline : Option Int
  pausedRemainingMs : Option Int
  timeoutId : Option Nat
  pending : List Timeout
  nextId : Nat
  completions : Nat
  deriving DecidableEq, Repr

/-- clearTimer: if timeoutId is non-null, clearTimeout it and null the id. -/
def clearTimer (e : Engine) : Engine :=
  match e.timeoutId with
  | none => e
  | some i => { e with pending := e.pending.filter (fun t => t.id != i), timeoutId := none }

/-- The delay computed in scheduleNext: `(left % 1000) || 1000`. -/
def nextTickDelay (left : Int) : Int :=
  if left % 1000 = 0 then 1000 else left % 1000

/-- scheduleNext: if deadline is null do nothing, otherwise schedule a new
timeout for the next second boundary and store its id in timeoutId.
(The source does NOT clear any previously pending timeout here.) -/
def scheduleNext (now : Int) (e : Engine) : Engine :=
  match e.deadline with
  | none => e
  | some dl =>
      let left := max 0 (dl - now)
      { e with pending := ⟨e.nextId, nextTickDelay left⟩ :: e.pending,
               timeoutId := some e.nextId,
               nextId := e.nextId + 1 }

/-- complete: clearTimer, clear the running/paused flags, zero remainingMs,
invoke onComplete.  (The source does NOT clear `deadline` here.) -/
def complete (e : Engine) : Engine :=
  let e1 := clearTimer e
  { e1 with isRunning := false, isPaused := false, remainingMs := 0,
            completions := e1.completions + 1 }

/-- tick: if deadline is null return; else recompute the remaining time from
the deadline and the current time, store it, and either complete (when it
reached zero) or schedule the next wake-up. -/
def tick (now : Int) (e : Engine) : Engine :=
  match e.deadline with
  | none => e
  | some dl =>
      let left := max 0 (dl - now)
      let e1 := { e with remainingMs := left }
      if left ≤ 0 then complete e1 else scheduleNext now e1

/-- handleVisibilityChange: if the document is hidden or the engine is not
running, do nothing; otherwise re-sync by running tick immediately. -/
def handleVisibilityChange (hidden : Bool) (now : Int) (e : Engine) : Engine :=
  if hidden || !e.isRunning then e else tick now e

/-- start: no-op while running; otherwise resume from pausedRemainingMs when
present, else start from the full duration; set the deadline, the flags,
clear pausedRemainingMs, and tick immediately. -/
def start (now : Int) (e : Engine) : Engine :=
  if e.isRunning then e
  else
    let startDuration :=
      match e.pausedRemainingMs with
      | some r => r
      | none => e.durationMs
    let e1 := { e with deadline := some (now + startDuration),
                       isRunning := true, isPaused := false,
                       pausedRemainingMs := none }
    tick now e1

/-- pause: no-op unless running; otherwise clearTimer, capture the current
remainingMs into pausedRemainingMs, clear the flags and the deadline. -/
def pause (e : Engine) : Engine :=
  if !e.isRunning then e
  else
    let e1 := clearTimer e
    { e1 with pausedRemainingMs := some e1.remainingMs,
              isRunning := false, isPaused := true, deadline := none }

/-- stop: clearTimer, clear both flags, null deadline and pausedRemainingMs,
reset remainingMs to the configured duration. -/
def stop (e : Engine) : Engine :=
  let e1 := clearTimer e
  { e1 with isRunning := false, isPaused := false, deadline := none,
            pausedRemainingMs := none, remainingMs := e1.durationMs }

/-- reset is an alias for stop. -/
def reset (e : Engine) : Engine := stop e

/-- Engine construction: useRobustTimer({ durationMs }).  The source performs
no validation of durationMs; the initial remainingMs is durationMs. -/
def useRobustTimer (durationMs : Int) : Engine :=
  { durationMs := durationMs, remainingMs := durationMs,
    isRunning := false, isPaused := false,
    deadline := none, pausedRemainingMs := none,
    timeoutId := none, pending := [], nextId := 0, completions := 0 }

/-- The platform delivering a scheduled timeout with id `i` at time `now`:
it is removed from the pending queue and the engine's tick runs.  A timeout
that is not pending (already fired or cancelled) delivers nothing. -/
def fire (i : Nat) (now : Int) (e : Engine) : Engine :=
  if e.pending.any (fun t => t.id == i) then
    tick now { e with pending := e.pending.filter (fun t => t.id != i) }
  else e

/-- The asynchronous events that can reach the engine. -/
inductive Event where
  | start (now : Int)
  | pause
  | stop
  | fire (i : Nat) (now : Int)
  | visibilitychange (hidden : Bool) (now : Int)
  deriving DecidableEq, Repr

/-- One event step. -/
def stepE (e : Engine) : Event → Engine
  | Event.start now => start now e
  | Event.pause => pause e
  | Event.stop => stop e
  | Event.fire i now => fire i now e
  | Event.visibilitychange h now => handleVisibilityChange h now e

/-- Running a sequence of events. -/
def run (e : Engine) (evts : List Event) : Engine := evts.foldl stepE e

/-- Reachability from a freshly constructed engine of duration d. -/
def Reachable (d : Int) (e : Engine) : Prop :=
  ∃ evts : List Event, run (useRobustTimer d) evts = e

/-- The inductive state invariant: pausedRemainingMs is non-null exactly in
the paused state, and the paused state has no deadline. -/
def Inv (e : Engine) : Prop :=
  (e.pausedRemainingMs.isSome = true ↔ e.isPaused = true) ∧
  (e.isPaused = true → e.deadline = none)

/-- A concrete running engine: duration 5000, started at time 0
(deadline 5000, one pending wake-up of id 0). -/
def runningState : Engine := run (useRobustTimer 5000) [Event.start 0]

/-- A concrete paused engine: duration 5000, started at 0, wake-up fired at
1000 (remaining 4000), then paused (pausedRemainingMs = some 4000). -/
def pausedState : Engine :=
  run (useRobustTimer 5000) [Event.start 0, Event.fire 0 1000, Event.pause]

/-- A concrete completed engine: duration 2000, started at 0, wake-up fired at
2000 (remaining 0, callback invoked once). -/
def completedState : Engine := run (useRobustTimer 2000) [Event.start 0, Event.fire 0 2000]

/-- A concrete running engine on which a visibility resync arrived while a
wake-up was still pending: duration 5000, started at 0, visibility-became-true
at 1500. -/
def resyncedState : Engine :=
  run (useRobustTimer 5000) [Event.start 0, Event.visibilitychange false 1500]

/-! ### Field-preservation helper lemmas -/

theorem clearTimer_deadline (e : Engine) : (clearTimer e).deadline = e.deadline := by
  unfold clearTimer; cases hd : e.timeoutId <;> simp [hd]

theorem clearTimer_pausedRemainingMs (e : Engine) :
    (clearTimer e).pausedRemainingMs = e.pausedRemainingMs := by
  unfold clearTimer; cases hd : e.timeoutId <;> simp [hd]

theorem clearTimer_durationMs (e : Engine) : (clearTimer e).durationMs = e.durationMs := by
  unfold clearTimer; cases hd : e.timeoutId <;> simp [hd]

theorem clearTimer_remainingMs (e : Engine) : (clearTimer e).remainingMs = e.remainingMs := by
  unfold clearTimer; cases hd : e.timeoutId <;> simp [hd]

theorem clearTimer_isRunning (e : Engine) : (clearTimer e).isRunning = e.isRunning := by
  unfold clearTimer; cases hd : e.timeoutId <;> simp [hd]

theorem clearTimer_isPaused (e : Engine) : (clearTimer e).isPaused = e.isPaused := by
  unfold clearTimer; cases hd : e.timeoutId <;> simp [hd]

theorem clearTimer_completions (e : Engine) : (clearTimer e).completions = e.completions := by
  unfold clearTimer; cases hd : e.timeoutId <;> simp [hd]

theorem scheduleNext_deadline (now : Int) (e : Engine) :
    (scheduleNext now e).deadline = e.deadline := by
  unfold scheduleNext; cases hd : e.deadline <;> simp [hd]

theorem scheduleNext_pausedRemainingMs (now : Int) (e : Engine) :
    (scheduleNext now e).pausedRemainingMs = e.pausedRemainingMs := by
  unfold scheduleNext; cases hd : e.deadline <;> simp [hd]

theorem scheduleNext_durationMs (now : Int) (e : Engine) :
    (scheduleNext now e).durationMs = e.durationMs := by
  unfold scheduleNext; cases hd : e.deadline <;> simp [hd]

theorem scheduleNext_remainingMs (now : Int) (e : Engine) :
    (scheduleNext now e).remainingMs = e.remainingMs := by
  unfold scheduleNext; cases hd : e.deadline <;> simp [hd]

theorem scheduleNext_isRunning (now : Int) (e : Engine) :
    (scheduleNext now e).isRunning = e.isRunning := by
  unfold scheduleNext; cases hd : e.deadline <;> simp [hd]

theorem scheduleNext_isPaused (now : Int) (e : Engine) :
    (scheduleNext now e).isPaused = e.isPaused := by
  unfold scheduleNext; cases hd : e.deadline <;> simp [hd]

theorem scheduleNext_completions (now : Int) (e : Engine) :
    (scheduleNext now e).completions = e.completions := by
  unfold scheduleNext; cases hd : e.deadline <;> simp [hd]

theorem complete_deadline (e : Engine) : (complete e).deadline = e.deadline := by
  simp [complete, clearTimer_deadline]

theorem complete_pausedRemainingMs (e : Engine) :
    (complete e).pausedRemainingMs = e.pausedRemainingMs := by
  simp [complete, clearTimer_pausedRemainingMs]

theorem complete_durationMs (e : Engine) : (complete e).durationMs = e.durationMs := by
  simp [complete, clearTimer_durationMs]

theorem complete_isRunning (e : Engine) : (complete e).isRunning = false := by
  simp [complete]

theorem complete_isPaused (e : Engine) : (complete e).isPaused = false := by
  simp [complete]

theorem complete_remainingMs (e : Engine) : (complete e).remainingMs = 0 := by
  simp [complete]

theorem complete_completions (e : Engine) : (complete e).completions = e.completions + 1 := by
  simp [complete, clearTimer_completions]

theorem tick_deadline (now : Int) (e : Engine) : (tick now e).deadline = e.deadline := by
  unfold tick
  cases hd : e.deadline with
  | none => simp [hd]
  | some dl =>
    by_cases hle : max 0 (dl - now) ≤ 0 <;>
      simp [hle, complete_deadline, scheduleNext_deadline]

theorem tick_pausedRemainingMs (now : Int) (e : Engine) :
    (tick now e).pausedRemainingMs = e.pausedRemainingMs := by
  unfold tick
  cases hd : e.deadline with
  | none => simp [hd]
  | some dl =>
    by_cases hle : max 0 (dl - now) ≤ 0 <;>
      simp [hle, complete_pausedRemainingMs, scheduleNext_pausedRemainingMs]

theorem tick_durationMs (now : Int) (e : Engine) : (tick now e).durationMs = e.durationMs := by
  unfold tick
  cases hd : e.deadline with
  | none => simp [hd]
  | some dl =>
    by_cases hle : max 0 (dl - now) ≤ 0 <;>
      simp [hle, complete_durationMs, scheduleNext_durationMs]

/-- Whenever the deadline is present, a tick stores max 0 (deadline - now) in
remainingMs: in the completion branch that value is 0 and complete stores 0. -/
theorem tick_remainingMs (now : Int) (e : Engine) (dl : Int) (hd : e.deadline = some dl) :
    (tick now e).remainingMs = max 0 (dl - now) := by
  unfold tick
  rw [hd]
  by_cases hle : max 0 (dl - now) ≤ 0
  · have h0 : max 0 (dl - now) = 0 := le_antisymm hle (le_max_left _ _)
    simp [hle, complete_remainingMs, h0]
  · simp [hle, scheduleNext_remainingMs]

theorem tick_isRunning (now : Int) (e : Engine) (dl : Int) (hd : e.deadline = some dl)
    (hpos : ¬ max 0 (dl - now) ≤ 0) : (tick now e).isRunning = e.isRunning := by
  unfold tick
  rw [hd]
  simp [hpos, scheduleNext_isRunning]

theorem tick_isPaused (now : Int) (e : Engine) (dl : Int) (hd : e.deadline = some dl)
    (hpos : ¬ max 0 (dl - now) ≤ 0) : (tick now e).isPaused = e.isPaused := by
  unfold tick
  rw [hd]
  simp [hpos, scheduleNext_isPaused]

/-! ### Invariant preservation -/

theorem Inv_tick (now : Int) (e : Engine) (h : Inv e) : Inv (tick now e) := by
  obtain ⟨h1, h2⟩ := h
  cases hd : e.deadline with
  | none => simp only [tick, hd]; exact ⟨h1, h2⟩
  | some dl =>
    have hip : e.isPaused = false := by
      cases hip : e.isPaused
      · rfl
      · rw [h2 hip] at hd; cases hd
    have hpm : e.pausedRemainingMs = none := by
      cases hpm : e.pausedRemainingMs
      · rfl
      · have hps : e.pausedRemainingMs.isSome = true := by rw [hpm]; rfl
        rw [h1.mp hps] at hip; cases hip
    by_cases hle : max 0 (dl - now) ≤ 0
    · cases hti : e.timeoutId <;>
        simp [tick, hd, hle, Inv, complete, clearTimer, hti, hpm]
    · simp [tick, hd, hle, Inv, scheduleNext, hpm, hip]

theorem Inv_start (now : Int) (e : Engine) (h : Inv e) : Inv (start now e) := by
  unfold start
  by_cases hr : e.isRunning = true
  · simpa [hr] using h
  · simp only [hr, if_false, Bool.false_eq_true]
    apply Inv_tick
    simp [Inv]

theorem Inv_pause (e : Engine) (h : Inv e) : Inv (pause e) := by
  unfold pause
  by_cases hr : e.isRunning = true
  · simp only [hr, Bool.not_true, Bool.false_eq_true, if_false]
    simp [Inv]
  · have hr2 : e.isRunning = false := by simpa using hr
    simpa [hr2] using h

theorem Inv_stop (e : Engine) (h : Inv e) : Inv (stop e) := by
  simp [stop, Inv]

theorem Inv_fire (i : Nat) (now : Int) (e : Engine) (h : Inv e) : Inv (fire i now e) := by
  unfold fire
  by_cases hp : (e.pending.any fun t => t.id == i) = true
  · simp only [hp, if_true]
    apply Inv_tick
    exact h
  · simpa [hp] using h

theorem Inv_visibility (hdn : Bool) (now : Int) (e : Engine) (h : Inv e) :
    Inv (handleVisibilityChange hdn now e) := by
  unfold handleVisibilityChange
  split
  · exact h
  · exact Inv_tick now e h

theorem Inv_stepE (e : Engine) (ev : Event) (h : Inv e) : Inv (stepE e ev) := by
  cases ev with
  | start now => exact Inv_start now e h
  | pause => exact Inv_pause e h
  | stop => exact Inv_stop e h
  | fire i now => exact Inv_fire i now e h
  | visibilitychange hdn now => exact Inv_visibility hdn now e h

theorem Inv_run (l : List Event) (e : Engine) (h : Inv e) : Inv (run e l) := by
  induction l generalizing e with
  | nil => exact h
  | cons ev l ih => exact ih (stepE e ev) (Inv_stepE e ev h)

theorem Inv_useRobustTimer (d : Int) : Inv (useRobustTimer d) := by
  simp [Inv, useRobustTimer]

theorem Reachable_Inv (d : Int) (e : Engine) (h : Reachable d e) : Inv e := by
  obtain ⟨l, hl⟩ := h
  rw [← hl]
  exact Inv_run l _ (Inv_useRobustTimer d)

/-! ### durationMs is immutable across every event -/

theorem start_durationMs (now : Int) (e : Engine) : (start now e).durationMs = e.durationMs := by
  unfold start
  by_cases hr : e.isRunning = true
  · simp [hr]
  · simp only [hr, if_false, Bool.false_eq_true]
    rw [tick_durationMs]

theorem pause_durationMs (e : Engine) : (pause e).durationMs = e.durationMs := by
  unfold pause
  by_cases hr : e.isRunning = true
  · simp [hr, clearTimer_durationMs]
  · have hr2 : e.isRunning = false := by simpa using hr
    simp [hr2]

theorem stop_durationMs (e : Engine) : (stop e).durationMs = e.durationMs := by
  simp [stop, clearTimer_durationMs]

theorem fire_durationMs (i : Nat) (now : Int) (e : Engine) :
    (fire i now e).durationMs = e.durationMs := by
  unfold fire
  by_cases hp : (e.pending.any fun t => t.id == i) = true
  · simp only [hp, if_true]
    rw [tick_durationMs]
  · simp [hp]

theorem visibility_durationMs (hdn : Bool) (now : Int) (e : Engine) :
    (handleVisibilityChange hdn now e).durationMs = e.durationMs := by
  unfold handleVisibilityChange
  split
  · rfl
  · rw [tick_durationMs]

theorem stepE_durationMs (e : Engine) (ev : Event) : (stepE e ev).durationMs = e.durationMs := by
  cases ev with
  | start now => exact start_durationMs now e
  | pause => exact pause_durationMs e
  | stop => exact stop_durationMs e
  | fire i now => exact fire_durationMs i now e
  | visibilitychange hdn now => exact visibility_durationMs hdn now e

theorem run_durationMs (l : List Event) (e : Engine) : (run e l).durationMs = e.durationMs := by
  induction l generalizing e with
  | nil => rfl
  | cons ev l ih =>
    have hstep : run e (ev :: l) = run (stepE e ev) l := rfl
    rw [hstep, ih (stepE e ev), stepE_durationMs]

theorem Reachable_durationMs (d : Int) (e : Engine) (h : Reachable d e) : e.durationMs = d := by
  obtain ⟨l, hl⟩ := h
  rw [← hl, run_durationMs]
  rfl


/-- Claim C1 (code bug evaluation): the spec requires that in every reachable
state at most one wake-up is outstanding.  The code violates this: a
visibility resync while running runs tick, whose scheduleNext schedules a new
timeout without cancelling the still-pending one, so after start at 0 and a
visibility-became-true resync at 1500 the engine has two pending wake-ups. -/
theorem C1_duplicate_pending : resyncedState.pending.length = 2 := by decide

/-- Claim C2 (code bug evaluation): the spec requires the completion callback
to fire exactly once per start-to-completed cycle.  After a visibility resync
at 1500 left a duplicate pending wake-up, the wake-up scheduled by the resync
fires at the deadline 5000 and completes (one callback); the stale duplicate
then fires at 5100, finds the never-cleared deadline, and completes again: the
callback is invoked a second time within the same cycle. -/
theorem C2_double_completion :
    (run (useRobustTimer 5000)
      [Event.start 0, Event.visibilitychange false 1500, Event.fire 1 5000]).completions = 1 ∧
    (run (useRobustTimer 5000)
      [Event.start 0, Event.visibilitychange false 1500, Event.fire 1 5000,
       Event.fire 0 5100]).completions = 2 := by
  exact ⟨by decide, by decide⟩

/-- Claim C3 counterexample: constructing the engine with durationMs = -1 is
not rejected; it produces an engine whose observable remaining time is the
negative value -1. -/
theorem C3_cex :
    (useRobustTimer (-1)).remainingMs = -1 ∧ (useRobustTimer (-1)).remainingMs < 0 := by
  exact ⟨rfl, by decide⟩

/-- Claim C3 (amended): construction performs no validation of durationMs; for
any non-positive durationMs the engine is still constructed and its initial
observable remainingMs equals durationMs, hence is non-positive. -/
theorem C3_no_validation (d : Int) (hd : d ≤ 0) :
    (useRobustTimer d).remainingMs = d ∧ (useRobustTimer d).remainingMs ≤ 0 :=
  ⟨rfl, hd⟩

/-- Claim C3 witness: the amended claim at durationMs = -2. -/
theorem C3_no_validation_w :
    (-2 : Int) ≤ 0 ∧
    ((useRobustTimer (-2)).remainingMs = -2 ∧ (useRobustTimer (-2)).remainingMs ≤ 0) :=
  ⟨by decide, C3_no_validation (-2) (by decide)⟩

/-- Claim C4 counterexample: a reachable completed state (flags cleared,
remainingMs = 0, callback fired) in which deadline is NOT null: complete()
never clears deadline, so after the wake-up at the deadline the completed
engine still holds deadline = some 2000. -/
theorem C4_cex :
    completedState.isRunning = false ∧ completedState.isPaused = false ∧
    completedState.remainingMs = 0 ∧ completedState.completions = 1 ∧
    completedState.deadline = some 2000 := by
  refine ⟨by decide, by decide, by decide, by decide, by decide⟩

/-- Claim C4 (amended): in every reachable state at most one of deadline and
pausedRemainingMs is non-null (never both), and in the initial idle state both
are null; but a completed state keeps its deadline non-null. -/
theorem C4_mutual_exclusion (d : Int) (e : Engine) (h : Reachable d e) :
    (e.deadline = none ∨ e.pausedRemainingMs = none) ∧
    (useRobustTimer d).deadline = none ∧ (useRobustTimer d).pausedRemainingMs = none := by
  obtain ⟨h1, h2⟩ := Reachable_Inv d e h
  refine ⟨?_, rfl, rfl⟩
  cases hpm : e.pausedRemainingMs with
  | none => exact Or.inr rfl
  | some r =>
      left
      apply h2
      apply h1.mp
      rw [hpm]
      rfl

/-- Claim C4 witness: the amended claim at the concrete reachable paused state. -/
theorem C4_mutual_exclusion_w :
    (pausedState.deadline = none ∨ pausedState.pausedRemainingMs = none) ∧
    (useRobustTimer 5000).deadline = none ∧ (useRobustTimer 5000).pausedRemainingMs = none :=
  C4_mutual_exclusion 5000 pausedState ⟨[Event.start 0, Event.fire 0 1000, Event.pause], rfl⟩

/-- Claim C5: every wake-up with a present deadline stores
max(0, deadline - now) in remainingMs; when that value is zero it completes
(flags cleared, callback invoked); otherwise it schedules the next wake-up
with delay (remaining mod 1000), or 1000 when the remainder is zero. -/
theorem C5_tick_spec (e : Engine) (dl now : Int) (hd : e.deadline = some dl) :
    (tick now e).remainingMs = max 0 (dl - now) ∧
    (max 0 (dl - now) = 0 →
       (tick now e).isRunning = false ∧ (tick now e).isPaused = false ∧
       (tick now e).completions = e.completions + 1) ∧
    (max 0 (dl - now) ≠ 0 →
       (tick now e).completions = e.completions ∧
       (tick now e).timeoutId = some e.nextId ∧
       (tick now e).pending.head? =
         some ⟨e.nextId, nextTickDelay (max 0 (dl - now))⟩) ∧
    (∀ left : Int, left % 1000 = 0 → nextTickDelay left = 1000) ∧
    (∀ left : Int, left % 1000 ≠ 0 → nextTickDelay left = left % 1000) := by
  refine ⟨tick_remainingMs now e dl hd, ?_, ?_, ?_, ?_⟩
  · intro h0
    have hle : max 0 (dl - now) ≤ 0 := le_of_eq h0
    unfold tick
    rw [hd]
    simp [hle, complete_isRunning, complete_isPaused, complete_completions]
  · intro hne
    have hge : 0 ≤ max 0 (dl - now) := le_max_left _ _
    have hgt : ¬ max 0 (dl - now) ≤ 0 := fun hle => hne (le_antisymm hle hge)
    unfold tick
    rw [hd]
    simp [hgt, scheduleNext, scheduleNext_completions]
  · intro left h
    simp [nextTickDelay, h]
  · intro left h
    simp [nextTickDelay, h]

/-- Claim C5 witness: a wake-up at time 1500 on the running engine with
deadline 5000 stores max 0 (5000 - 1500) = 3500. -/
theorem C5_tick_spec_w :
    runningState.deadline = some 5000 ∧
    (tick 1500 runningState).remainingMs = max 0 (5000 - 1500) :=
  ⟨by decide, (C5_tick_spec runningState 5000 1500 (by decide)).1⟩


/-- Claim C6: from any paused engine with captured remaining time r, start()
at time t sets the new deadline to t + r and clears the captured value; when
the captured value is what remained of the configured duration after x ms had
elapsed (r = durationMs - x), the total running time to completion,
x + ((t + r) - t), equals the configured duration, independent of the length
of the pause. -/
theorem C6_pause_resume (e : Engine) (r t x : Int)
    (hrun : e.isRunning = false) (hp : e.pausedRemainingMs = some r) :
    (start t e).deadline = some (t + r) ∧
    (start t e).pausedRemainingMs = none ∧
    (r = e.durationMs - x → x + ((t + r) - t) = e.durationMs) := by
  refine ⟨?_, ?_, fun hx => by omega⟩
  · simp [start, hrun, hp, tick_deadline]
  · simp [start, hrun, hp, tick_pausedRemainingMs]

/-- Claim C6 witness: resuming the concrete paused engine (duration 5000,
4000 ms captured after 1000 ms elapsed) at time 9000 yields deadline 13000. -/
theorem C6_pause_resume_w :
    pausedState.isRunning = false ∧ pausedState.pausedRemainingMs = some 4000 ∧
    ((start 9000 pausedState).deadline = some (9000 + 4000) ∧
     (start 9000 pausedState).pausedRemainingMs = none ∧
     ((4000 : Int) = pausedState.durationMs - 1000 →
        1000 + ((9000 + 4000) - 9000) = pausedState.durationMs)) :=
  ⟨by decide, by decide, C6_pause_resume pausedState 4000 9000 1000 (by decide) (by decide)⟩

/-- Claim C7 counterexample: stop() does not cancel every pending wake-up.
After a visibility resync left a duplicate pending timeout, stop() cancels
only the tracked one (timeoutId); the stale duplicate remains pending. -/
theorem C7_cex : (stop resyncedState).pending ≠ [] := by decide

/-- Claim C7 (amended): stop() is idempotent and total over states: from any
state it yields remainingMs = durationMs, isRunning = false, isPaused = false,
deadline = null, pausedRemainingMs = null, and cancels the tracked pending
wake-up (clearing timeoutId and removing that id from the pending queue); a
stale duplicate wake-up left by a visibility resync is not cancelled. -/
theorem C7_stop_spec (e : Engine) :
    (stop e).remainingMs = e.durationMs ∧
    (stop e).isRunning = false ∧
    (stop e).isPaused = false ∧
    (stop e).deadline = none ∧
    (stop e).pausedRemainingMs = none ∧
    (stop e).timeoutId = none ∧
    stop (stop e) = stop e ∧
    (∀ i : Nat, e.timeoutId = some i →
        (stop e).pending = e.pending.filter (fun t => t.id != i)) ∧
    (e.timeoutId = none → (stop e).pending = e.pending) := by
  cases hti : e.timeoutId with
  | none => simp [stop, clearTimer, hti]
  | some i => simp [stop, clearTimer, hti]

/-- Claim C7 witness: stop() applied to the concrete paused engine resets the
remaining time, and (its timeoutId being null) leaves the pending queue as it
was. -/
theorem C7_stop_spec_w :
    (stop pausedState).remainingMs = pausedState.durationMs ∧
    (stop pausedState).pending = pausedState.pending :=
  ⟨(C7_stop_spec pausedState).1, (C7_stop_spec pausedState).2.2.2.2.2.2.2.2 (by decide)⟩

/-- Claim C8: with a fixed deadline, wake-ups at non-decreasing times yield a
non-increasing remainingMs; and resuming a paused engine with captured value
r ≥ 0 never raises remainingMs above r, neither at the resume itself nor at
any later wake-up. -/
theorem C8_monotone (e ep : Engine) (dl r t : Int)
    (hd : e.deadline = some dl)
    (hrun : ep.isRunning = false) (hp : ep.pausedRemainingMs = some r) (hr : 0 ≤ r) :
    (∀ now1 now2 : Int, now1 ≤ now2 →
        (tick now2 (tick now1 e)).remainingMs ≤ (tick now1 e).remainingMs) ∧
    (start t ep).remainingMs ≤ r ∧
    (∀ now : Int, t ≤ now → (tick now (start t ep)).remainingMs ≤ r) := by
  have hs :
      start t ep =
        tick t { ep with
          deadline := some (t + r), isRunning := true,
          isPaused := false, pausedRemainingMs := none } := by
    simp [start, hrun, hp]
  have hsd : (start t ep).deadline = some (t + r) := by
    rw [hs, tick_deadline]
  refine ⟨?_, ?_, ?_⟩
  · intro now1 now2 h12
    have d1 : (tick now1 e).deadline = some dl := by rw [tick_deadline, hd]
    rw [tick_remainingMs now2 (tick now1 e) dl d1, tick_remainingMs now1 e dl hd]
    exact max_le_max (le_refl 0) (by omega)
  · rw [hs, tick_remainingMs t _ (t + r) rfl]
    have heq : t + r - t = r := by ring
    rw [heq]
    exact max_le hr (le_refl r)
  · intro now hnow
    rw [tick_remainingMs now (start t ep) (t + r) hsd]
    exact max_le hr (by omega)

/-- Claim C8 witness: on the concrete running engine (deadline 5000), the
wake-up at 2000 shows no more remaining than the one at 1000; resuming the
concrete paused engine (captured 4000) at 9000 and ticking at 9500 stays at
or below 4000. -/
theorem C8_monotone_w :
    runningState.deadline = some 5000 ∧ pausedState.isRunning = false ∧
    pausedState.pausedRemainingMs = some 4000 ∧ (0 : Int) ≤ 4000 ∧
    (tick 2000 (tick 1000 runningState)).remainingMs ≤ (tick 1000 runningState).remainingMs ∧
    (start 9000 pausedState).remainingMs ≤ 4000 ∧
    (tick 9500 (start 9000 pausedState)).remainingMs ≤ 4000 :=
  ⟨by decide, by decide, by decide, by decide,
   (C8_monotone runningState pausedState 5000 4000 9000
      (by decide) (by decide) (by decide) (by decide)).1 1000 2000 (by decide),
   (C8_monotone runningState pausedState 5000 4000 9000
      (by decide) (by decide) (by decide) (by decide)).2.1,
   (C8_monotone runningState pausedState 5000 4000 9000
      (by decide) (by decide) (by decide) (by decide)).2.2 9500 (by decide)⟩

/-- Claim C9: a visibility-change signal is a no-op when the page is hidden,
and a no-op when the engine is not running (paused, idle or completed); when
the page is visible and the engine is running it recomputes immediately,
behaving exactly as a scheduled wake-up (tick) at that instant. -/
theorem C9_visibility (e : Engine) (now : Int) :
    handleVisibilityChange true now e = e ∧
    (e.isRunning = false → handleVisibilityChange false now e = e) ∧
    (e.isRunning = true → handleVisibilityChange false now e = tick now e) := by
  refine ⟨rfl, ?_, ?_⟩
  · intro h
    simp [handleVisibilityChange, h]
  · intro h
    simp [handleVisibilityChange, h]

/-- Claim C9 witness: hidden signal on the running engine, visible signal on
the paused engine, and visible signal on the running engine, at concrete
times. -/
theorem C9_visibility_w :
    handleVisibilityChange true 100 runningState = runningState ∧
    pausedState.isRunning = false ∧
    handleVisibilityChange false 100 pausedState = pausedState ∧
    runningState.isRunning = true ∧
    handleVisibilityChange false 1500 runningState = tick 1500 runningState :=
  ⟨(C9_visibility runningState 100).1, by decide,
   (C9_visibility pausedState 100).2.1 (by decide), by decide,
   (C9_visibility runningState 1500).2.2 (by decide)⟩

/-- Claim C10: in any reachable non-running non-paused state (such as the
completed state, where remainingMs has reached 0), pausedRemainingMs is null,
so start() at time t begins a fresh full-duration cycle: deadline becomes
t + durationMs, isRunning true and isPaused false (the configured duration
being positive). -/
theorem C10_restart_after_complete (d t : Int) (e : Engine)
    (hre : Reachable d e) (hd : 0 < d)
    (hrun : e.isRunning = false) (hpb : e.isPaused = false) (hz : e.remainingMs = 0) :
    e.pausedRemainingMs = none ∧
    (start t e).deadline = some (t + d) ∧
    (start t e).isRunning = true ∧
    (start t e).isPaused = false := by
  have hdur : e.durationMs = d := Reachable_durationMs d e hre
  obtain ⟨h1, h2⟩ := Reachable_Inv d e hre
  have hpm : e.pausedRemainingMs = none := by
    cases hpm : e.pausedRemainingMs with
    | none => rfl
    | some r =>
        have hps : e.isPaused = true := h1.mp (by rw [hpm]; rfl)
        rw [hps] at hpb
        cases hpb
  have hs :
      start t e =
        tick t { e with
          deadline := some (t + e.durationMs), isRunning := true,
          isPaused := false, pausedRemainingMs := none } := by
    simp [start, hrun, hpm]
  have hpos : ¬ max 0 (t + e.durationMs - t) ≤ 0 := by
    have heq : t + e.durationMs - t = e.durationMs := by ring
    rw [heq, hdur, max_eq_right hd.le]
    omega
  refine ⟨hpm, ?_, ?_, ?_⟩
  · rw [hs, tick_deadline]
    simp [hdur]
  · rw [hs, tick_isRunning t _ (t + e.durationMs) rfl hpos]
  · rw [hs, tick_isPaused t _ (t + e.durationMs) rfl hpos]

/-- Claim C10 witness: the concrete completed engine (duration 2000) restarted
at time 3000 gets deadline 5000 and runs. -/
theorem C10_restart_after_complete_w :
    Reachable 2000 completedState ∧ (0 : Int) < 2000 ∧
    completedState.isRunning = false ∧ completedState.isPaused = false ∧
    completedState.remainingMs = 0 ∧
    (completedState.pausedRemainingMs = none ∧
     (start 3000 completedState).deadline = some (3000 + 2000) ∧
     (start 3000 completedState).isRunning = true ∧
     (start 3000 completedState).isPaused = false) :=
  ⟨⟨[Event.start 0, Event.fire 0 2000], rfl⟩, by decide, by decide, by decide, by decide,
   C10_restart_after_complete 2000 3000 completedState
     ⟨[Event.start 0, Event.fire 0 2000], rfl⟩ (by decide) (by decide) (by decide) (by decide)⟩

end Zentick
